import Mathlib

/-
Verification development for the UKF core in src/ukf.cpp.
The C++ double arithmetic is modelled over the real numbers; Eigen vectors
and matrices become functions out of Fin n; the mutable UKF instance becomes
an explicit state record threaded through the member functions.
-/

noncomputable section

namespace UKFM

/-- Sensor type of a measurement record (MeasurementPackage::SensorType). -/
inductive SensorType where
  | laser : SensorType
  | radar : SensorType
deriving DecidableEq

/-- One measurement record (MeasurementPackage): sensor type, timestamp in
microseconds, and the raw measurement values (2 used for laser, 3 for radar). -/
structure MeasurementPackage where
  sensor_type_ : SensorType
  timestamp_ : ℤ
  raw_measurements_ : Fin 3 → ℝ

/-- The mutable fields of the UKF instance that change after construction
(ukf.cpp constructor, lines 13-75).  The constants set in the constructor and
never reassigned are modelled as top-level definitions below. -/
structure UKFState where
  is_initialized_ : Bool
  previous_timestamp_ : ℤ
  use_laser_ : Bool
  use_radar_ : Bool
  x_ : Fin 5 → ℝ
  P_ : Matrix (Fin 5) (Fin 5) ℝ
  Xsig_pred_ : Matrix (Fin 5) (Fin 15) ℝ

/-- Process noise standard deviation, longitudinal acceleration (ukf.cpp line 25). -/
def std_a_ : ℝ := 0.5

/-- Process noise standard deviation, yaw acceleration (ukf.cpp line 28). -/
def std_yawdd_ : ℝ := 1.0

/-- Laser position1 measurement noise standard deviation (ukf.cpp line 31). -/
def std_laspx_ : ℝ := 0.15

/-- Laser position2 measurement noise standard deviation (ukf.cpp line 34). -/
def std_laspy_ : ℝ := 0.15

/-- Radar radius measurement noise standard deviation (ukf.cpp line 37). -/
def std_radr_ : ℝ := 0.3

/-- Radar angle measurement noise standard deviation (ukf.cpp line 40). -/
def std_radphi_ : ℝ := 0.03

/-- Radar radius-change measurement noise standard deviation (ukf.cpp line 43). -/
def std_radrd_ : ℝ := 0.3

/-- Augmented state dimension (ukf.cpp line 49). -/
def n_aug_ : ℕ := 7

/-- Sigma point spreading parameter, lambda = 3 - n_aug (ukf.cpp line 52). -/
def lambda_ : ℝ := 3 - (n_aug_ : ℝ)

/-- Sigma point weights built in the constructor (ukf.cpp lines 65-71):
weight 0 is lambda/(lambda+n_aug), all the others are 0.5/(n_aug+lambda). -/
def weights_ : Fin 15 → ℝ := fun i =>
  if i = 0 then lambda_ / (lambda_ + (n_aug_ : ℝ)) else 0.5 / ((n_aug_ : ℝ) + lambda_)

/-- First angle normalization loop: while the angle exceeds pi, subtract 2 pi
(the pattern at ukf.cpp lines 252, 370, 394). -/
def wrapDown (a : ℝ) : ℝ :=
  if h : Real.pi < a then wrapDown (a - 2 * Real.pi) else a
termination_by (⌈(a - Real.pi) / (2 * Real.pi)⌉).toNat
decreasing_by
  have hp : (0:ℝ) < 2 * Real.pi := by positivity
  have h1 : (a - 2 * Real.pi - Real.pi) / (2 * Real.pi)
      = (a - Real.pi) / (2 * Real.pi) - 1 := by field_simp; ring
  rw [h1, Int.ceil_sub_one]
  have h2 : (0:ℝ) < (a - Real.pi) / (2 * Real.pi) := div_pos (by linarith) hp
  have h3 : 0 < ⌈(a - Real.pi) / (2 * Real.pi)⌉ := Int.ceil_pos.mpr h2
  omega

/-- Second angle normalization loop: while the angle is below -pi, add 2 pi
(the pattern at ukf.cpp lines 253, 371, 395). -/
def wrapUp (a : ℝ) : ℝ :=
  if h : a < -Real.pi then wrapUp (a + 2 * Real.pi) else a
termination_by (⌈(-Real.pi - a) / (2 * Real.pi)⌉).toNat
decreasing_by
  have hp : (0:ℝ) < 2 * Real.pi := by positivity
  have h1 : (-Real.pi - (a + 2 * Real.pi)) / (2 * Real.pi)
      = (-Real.pi - a) / (2 * Real.pi) - 1 := by field_simp; ring
  rw [h1, Int.ceil_sub_one]
  have h2 : (0:ℝ) < (-Real.pi - a) / (2 * Real.pi) := div_pos (by linarith) hp
  have h3 : 0 < ⌈(-Real.pi - a) / (2 * Real.pi)⌉ := Int.ceil_pos.mpr h2
  omega

/-- The full two-loop angle normalization used throughout ukf.cpp:
first the subtract-2pi loop, then the add-2pi loop. -/
def normalizeAngle (a : ℝ) : ℝ := wrapUp (wrapDown a)

/-- Fuel-indexed semantics of the subtract-2pi while loop: returns none when
the loop has not finished within the given number of iterations. -/
def downFuel : ℕ → ℝ → Option ℝ
  | 0, a => if Real.pi < a then none else some a
  | n + 1, a => if Real.pi < a then downFuel n (a - 2 * Real.pi) else some a

/-- Fuel-indexed semantics of the add-2pi while loop: returns none when
the loop has not finished within the given number of iterations. -/
def upFuel : ℕ → ℝ → Option ℝ
  | 0, a => if a < -Real.pi then none else some a
  | n + 1, a => if a < -Real.pi then upFuel n (a + 2 * Real.pi) else some a

/-- Augmented mean vector: the state padded with the two zero-mean process
noise terms (ukf.cpp lines 272-281). -/
def x_aug (s : UKFState) : Fin 7 → ℝ := fun i =>
  if h : i.val < 5 then s.x_ ⟨i.val, h⟩ else 0

/-- Augmented covariance: P in the top-left 5x5 block, the process noise
variances on the last two diagonal entries, zero elsewhere
(ukf.cpp lines 283-286). -/
def P_aug (s : UKFState) : Matrix (Fin 7) (Fin 7) ℝ := fun i j =>
  if hi : i.val < 5 then
    (if hj : j.val < 5 then s.P_ ⟨i.val, hi⟩ ⟨j.val, hj⟩ else 0)
  else if i.val = 5 ∧ j.val = 5 then std_a_ * std_a_
  else if i.val = 6 ∧ j.val = 6 then std_yawdd_ * std_yawdd_
  else 0

/-- Sum of products of already-computed Cholesky entries in columns before j,
the inner sum of the standard lower Cholesky factorization. -/
def cholSum (L : Matrix (Fin 7) (Fin 7) ℝ) (i j : Fin 7) : ℝ :=
  ∑ k : Fin 7, if k.val < j.val then L i k * L j k else 0

/-- One column of the lower Cholesky factor, computed from the columns
already filled in L (model of Eigen llt().matrixL(), ukf.cpp line 288). -/
def cholCol (A L : Matrix (Fin 7) (Fin 7) ℝ) (j : Fin 7) : Fin 7 → ℝ := fun i =>
  if i.val < j.val then 0
  else if i = j then Real.sqrt (A j j - cholSum L j j)
  else (A i j - cholSum L i j) / Real.sqrt (A j j - cholSum L j j)

/-- Write column j of the Cholesky factor into the accumulating matrix. -/
def cholUp (A L : Matrix (Fin 7) (Fin 7) ℝ) (j : Fin 7) : Matrix (Fin 7) (Fin 7) ℝ :=
  fun i jj => if jj = j then cholCol A L j i else L i jj

/-- Lower Cholesky factor of a 7x7 matrix, columns filled left to right
(model of Eigen llt().matrixL(), ukf.cpp line 288). -/
def cholL (A : Matrix (Fin 7) (Fin 7) ℝ) : Matrix (Fin 7) (Fin 7) ℝ :=
  cholUp A (cholUp A (cholUp A (cholUp A (cholUp A (cholUp A (cholUp A 0 0) 1) 2) 3) 4) 5) 6

/-- Augmented sigma points (ukf.cpp lines 271-296): column 0 is the augmented
mean, columns 1..7 add sqrt(lambda+n_aug) times a Cholesky column, columns
8..14 subtract it. -/
def AugmentedSigmaPoints (s : UKFState) : Matrix (Fin 7) (Fin 15) ℝ := fun r i =>
  if i.val = 0 then x_aug s r
  else if h : i.val ≤ 7 then
    x_aug s r + Real.sqrt (lambda_ + (n_aug_ : ℝ)) * cholL (P_aug s) r ⟨i.val - 1, by omega⟩
  else
    x_aug s r - Real.sqrt (lambda_ + (n_aug_ : ℝ)) * cholL (P_aug s) r ⟨i.val - 8, by omega⟩

/-- CTRV propagation of one augmented sigma column by dt seconds, including
the second-order process noise injection (ukf.cpp lines 308-347). -/
def ctrv (c : Fin 7 → ℝ) (dt : ℝ) : Fin 5 → ℝ :=
  let p_x := c 0
  let p_y := c 1
  let v := c 2
  let yaw := c 3
  let yawd := c 4
  let nu_a := c 5
  let nu_yawdd := c 6
  let px1 := if |yawd| > 0.001 then
      p_x + v / yawd * (Real.sin (yaw + yawd * dt) - Real.sin yaw)
    else p_x + v * dt * Real.cos yaw
  let py1 := if |yawd| > 0.001 then
      p_y + v / yawd * (Real.cos yaw - Real.cos (yaw + yawd * dt))
    else p_y + v * dt * Real.sin yaw
  fun r =>
    if r.val = 0 then px1 + 0.5 * nu_a * dt * dt * Real.cos yaw
    else if r.val = 1 then py1 + 0.5 * nu_a * dt * dt * Real.sin yaw
    else if r.val = 2 then v + nu_a * dt
    else if r.val = 3 then yaw + yawd * dt + 0.5 * nu_yawdd * dt * dt
    else yawd + nu_yawdd * dt

/-- Predicted sigma points: every augmented sigma column propagated through
the CTRV motion model (UKF::SigmaPointPrediction, ukf.cpp lines 299-350). -/
def SigmaPointPrediction (s : UKFState) (dt : ℝ) : Matrix (Fin 5) (Fin 15) ℝ :=
  fun r i => ctrv (fun j => AugmentedSigmaPoints s j i) dt r

/-- Weighted mean of the predicted sigma points (ukf.cpp lines 358-362). -/
def predMean (Xp : Matrix (Fin 5) (Fin 15) ℝ) : Fin 5 → ℝ :=
  fun r => ∑ i : Fin 15, weights_ i * Xp r i

/-- State difference of sigma column i against the mean, with the yaw
component (index 3) angle-normalized, exactly as the loops at
ukf.cpp lines 368-371 and 397-402 compute it. -/
def stateDiffN (Xp : Matrix (Fin 5) (Fin 15) ℝ) (xm : Fin 5 → ℝ) (i : Fin 15) :
    Fin 5 → ℝ := fun r =>
  if r = 3 then normalizeAngle (Xp 3 i - xm 3) else Xp r i - xm r

/-- Weighted outer-product accumulation of the normalized state differences:
the predicted covariance (ukf.cpp lines 364-374). -/
def predCov (Xp : Matrix (Fin 5) (Fin 15) ℝ) (xm : Fin 5 → ℝ) :
    Matrix (Fin 5) (Fin 5) ℝ := fun a b =>
  ∑ i : Fin 15, weights_ i * stateDiffN Xp xm i a * stateDiffN Xp xm i b

/-- UKF::PredictMeanAndCovariance (ukf.cpp lines 352-377): the new state mean
and covariance computed from the stored predicted sigma points. -/
def PredictMeanAndCovariance (s : UKFState) : (Fin 5 → ℝ) × Matrix (Fin 5) (Fin 5) ℝ :=
  (predMean s.Xsig_pred_, predCov s.Xsig_pred_ (predMean s.Xsig_pred_))

/-- UKF::Prediction (ukf.cpp lines 139-142): store the propagated sigma
points, then recombine them into the new mean and covariance. -/
def Prediction (s : UKFState) (dt : ℝ) : UKFState :=
  let s1 := { s with Xsig_pred_ := SigmaPointPrediction s dt }
  { s1 with x_ := (PredictMeanAndCovariance s1).1, P_ := (PredictMeanAndCovariance s1).2 }

/-- Measurement residual of sigma column i against the predicted measurement,
with component 1 angle-normalized; this is how both the radar S loop
(ukf.cpp lines 247-256) and the shared cross-correlation loop
(ukf.cpp lines 388-395) process residuals, for either sensor dimension. -/
def zDiffN {k : ℕ} (Zsig : Matrix (Fin (k + 2)) (Fin 15) ℝ)
    (z_pred : Fin (k + 2) → ℝ) (i : Fin 15) : Fin (k + 2) → ℝ := fun r =>
  if r = 1 then normalizeAngle (Zsig 1 i - z_pred 1) else Zsig r i - z_pred r

/-- Cross-correlation matrix Tc (ukf.cpp lines 383-405): weighted sum of
normalized state differences times normalized measurement residuals. -/
def Tc {k : ℕ} (s : UKFState) (Zsig : Matrix (Fin (k + 2)) (Fin 15) ℝ)
    (z_pred : Fin (k + 2) → ℝ) : Matrix (Fin 5) (Fin (k + 2)) ℝ := fun a b =>
  ∑ i : Fin 15,
    weights_ i * stateDiffN s.Xsig_pred_ s.x_ i a * zDiffN Zsig z_pred i b

/-- The innovation used to correct the state (ukf.cpp line 411):
the plain componentwise difference of the measurement and its prediction. -/
def innovationOf {k : ℕ} (z z_pred : Fin (k + 2) → ℝ) : Fin (k + 2) → ℝ :=
  z - z_pred

/-- UKF::UpdateState (ukf.cpp lines 380-417): Kalman gain from Tc and the
inverse innovation covariance, state and covariance update, and the returned
residual z - z_pred that the callers use for the NIS value. -/
def UpdateState {k : ℕ} (s : UKFState) (z : Fin (k + 2) → ℝ)
    (Zsig : Matrix (Fin (k + 2)) (Fin 15) ℝ) (S : Matrix (Fin (k + 2)) (Fin (k + 2)) ℝ)
    (z_pred : Fin (k + 2) → ℝ) : UKFState × (Fin (k + 2) → ℝ) :=
  let K := Tc s Zsig z_pred * S⁻¹
  let z_diff := innovationOf z z_pred
  ({ s with x_ := s.x_ + K.mulVec z_diff,
            P_ := s.P_ - K * S * K.transpose }, z_diff)

/-- NIS diagnostic scalar (ukf.cpp lines 199 and 267):
residual transposed times the inverse innovation covariance times residual. -/
def nisOf {m : ℕ} (S : Matrix (Fin m) (Fin m) ℝ) (zd : Fin m → ℝ) : ℝ :=
  Matrix.dotProduct zd (S⁻¹.mulVec zd)

/-- Laser measurement vector: the first two raw measurement values
(ukf.cpp line 155). -/
def lidarZ (pkg : MeasurementPackage) : Fin 2 → ℝ := fun r =>
  pkg.raw_measurements_ ⟨r.val, by omega⟩

/-- Laser sigma points in measurement space: the px and py rows of the
predicted sigma points (ukf.cpp lines 170-179). -/
def lidarZsig (s : UKFState) : Matrix (Fin 2) (Fin 15) ℝ := fun r i =>
  s.Xsig_pred_ ⟨r.val, by omega⟩ i

/-- Laser mean predicted measurement z_pred = Zsig * weights
(ukf.cpp line 182). -/
def lidarZpred (s : UKFState) : Fin 2 → ℝ := fun r =>
  ∑ i : Fin 15, lidarZsig s r i * weights_ i

/-- Laser measurement noise covariance R (ukf.cpp lines 192-194). -/
def Rlidar : Matrix (Fin 2) (Fin 2) ℝ :=
  Matrix.of ![![std_laspx_ * std_laspx_, 0], ![0, std_laspy_ * std_laspy_]]

/-- Laser innovation covariance S (ukf.cpp lines 184-195): plain residuals,
no angle normalization in this accumulation, plus R. -/
def lidarS (s : UKFState) : Matrix (Fin 2) (Fin 2) ℝ :=
  (Matrix.of fun a b => ∑ i : Fin 15,
      weights_ i * (lidarZsig s a i - lidarZpred s a)
        * (lidarZsig s b i - lidarZpred s b))
  + Rlidar

/-- UKF::UpdateLidar (ukf.cpp lines 148-201): the state actually stored after
a laser update (the NIS local computed on line 199 is modelled separately). -/
def UpdateLidar (s : UKFState) (pkg : MeasurementPackage) : UKFState :=
  (UpdateState s (lidarZ pkg) (lidarZsig s) (lidarS s) (lidarZpred s)).1

/-- The NIS value computed in UKF::UpdateLidar (ukf.cpp line 199), a local
variable that the function never stores or outputs. -/
def lidarNis (s : UKFState) (pkg : MeasurementPackage) : ℝ :=
  nisOf (lidarS s) (UpdateState s (lidarZ pkg) (lidarZsig s) (lidarS s) (lidarZpred s)).2

/-- Model of std::atan2 on the reals, by case analysis on the signs of the
arguments; used only to state the radar measurement projection. -/
def atan2 (y x : ℝ) : ℝ :=
  if 0 < x then Real.arctan (y / x)
  else if x < 0 ∧ 0 ≤ y then Real.arctan (y / x) + Real.pi
  else if x < 0 ∧ y < 0 then Real.arctan (y / x) - Real.pi
  else if x = 0 ∧ 0 < y then Real.pi / 2
  else if x = 0 ∧ y < 0 then -(Real.pi / 2)
  else 0

/-- Radar measurement vector: the three raw measurement values
(ukf.cpp line 214). -/
def radarZ (pkg : MeasurementPackage) : Fin 3 → ℝ := fun r =>
  pkg.raw_measurements_ ⟨r.val, by omega⟩

/-- Radar sigma points in measurement space: range, bearing, range rate
(ukf.cpp lines 229-241). -/
def radarZsig (s : UKFState) : Matrix (Fin 3) (Fin 15) ℝ := fun r i =>
  let p_x := s.Xsig_pred_ 0 i
  let p_y := s.Xsig_pred_ 1 i
  let v := s.Xsig_pred_ 2 i
  let yaw := s.Xsig_pred_ 3 i
  let v1 := Real.cos yaw * v
  let v2 := Real.sin yaw * v
  if r.val = 0 then Real.sqrt (p_x * p_x + p_y * p_y)
  else if r.val = 1 then atan2 p_y p_x
  else (p_x * v1 + p_y * v2) / Real.sqrt (p_x * p_x + p_y * p_y)

/-- Radar mean predicted measurement z_pred = Zsig * weights
(ukf.cpp line 244). -/
def radarZpred (s : UKFState) : Fin 3 → ℝ := fun r =>
  ∑ i : Fin 15, radarZsig s r i * weights_ i

/-- Radar measurement noise covariance R (ukf.cpp lines 259-262). -/
def Rradar : Matrix (Fin 3) (Fin 3) ℝ :=
  Matrix.of ![![std_radr_ * std_radr_, 0, 0],
              ![0, std_radphi_ * std_radphi_, 0],
              ![0, 0, std_radrd_ * std_radrd_]]

/-- Radar innovation covariance S (ukf.cpp lines 246-263): residuals with the
bearing component angle-normalized, plus R. -/
def radarS (s : UKFState) : Matrix (Fin 3) (Fin 3) ℝ :=
  (Matrix.of fun a b => ∑ i : Fin 15,
      weights_ i * zDiffN (radarZsig s) (radarZpred s) i a
        * zDiffN (radarZsig s) (radarZpred s) i b)
  + Rradar

/-- UKF::UpdateRadar (ukf.cpp lines 207-269): the state actually stored after
a radar update (the NIS local computed on line 267 is modelled separately). -/
def UpdateRadar (s : UKFState) (pkg : MeasurementPackage) : UKFState :=
  (UpdateState s (radarZ pkg) (radarZsig s) (radarS s) (radarZpred s)).1

/-- The NIS value computed in UKF::UpdateRadar (ukf.cpp line 267), a local
variable that the function never stores or outputs. -/
def radarNis (s : UKFState) (pkg : MeasurementPackage) : ℝ :=
  nisOf (radarS s) (UpdateState s (radarZ pkg) (radarZsig s) (radarS s) (radarZpred s)).2

/-- UKF::Initialize (ukf.cpp lines 84-113): zero the state, then seed it from
the first record.  A radar record writes rho cos phi, rho sin phi,
rho_dot cos phi, rho_dot sin phi into components 0-3 and 0 into component 4;
a laser record writes the two positions and leaves the rest zero. -/
def Initialize (s : UKFState) (pkg : MeasurementPackage) : UKFState :=
  let raw := pkg.raw_measurements_
  let xNew : Fin 5 → ℝ :=
    if pkg.sensor_type_ = SensorType.radar then fun i =>
      if i.val = 0 then raw 0 * Real.cos (raw 1)
      else if i.val = 1 then raw 0 * Real.sin (raw 1)
      else if i.val = 2 then raw 2 * Real.cos (raw 1)
      else if i.val = 3 then raw 2 * Real.sin (raw 1)
      else 0
    else fun i =>
      if i.val = 0 then raw 0
      else if i.val = 1 then raw 1
      else 0
  { s with x_ := xNew, previous_timestamp_ := pkg.timestamp_, is_initialized_ := true }

/-- Elapsed time in seconds between the new record and the stored previous
timestamp (ukf.cpp line 122). -/
def dtOf (s : UKFState) (pkg : MeasurementPackage) : ℝ :=
  ((pkg.timestamp_ - s.previous_timestamp_ : ℤ) : ℝ) / 1000000

/-- UKF::ProcessMeasurement (ukf.cpp lines 115-132): initialize on the first
record; otherwise compute dt, store the new timestamp, run Prediction with
dt, then dispatch the update on the sensor type of the record.  The
use_laser_ and use_radar_ flags are never consulted. -/
def ProcessMeasurement (s : UKFState) (pkg : MeasurementPackage) : UKFState :=
  if s.is_initialized_ = false then Initialize s pkg
  else
    let dt := dtOf s pkg
    let s1 := { s with previous_timestamp_ := pkg.timestamp_ }
    let s2 := Prediction s1 dt
    if pkg.sensor_type_ = SensorType.radar then UpdateRadar s2 pkg
    else UpdateLidar s2 pkg

/-- The state right after the constructor runs (ukf.cpp lines 13-75):
uninitialized flag, zero timestamp, both sensors enabled, identity P. -/
def ctorState : UKFState :=
  ⟨false, 0, true, true, 0, 1, 0⟩

/-- Symmetric positive-definite matrix, stated from the words of the spec
(section 3: P must stay symmetric positive semi-definite; section 8 property:
positive-definite input P). -/
def IsSPD (M : Matrix (Fin 5) (Fin 5) ℝ) : Prop :=
  (∀ i j, M i j = M j i) ∧
    ∀ v : Fin 5 → ℝ, v ≠ 0 → 0 < ∑ i : Fin 5, ∑ j : Fin 5, v i * M i j * v j

/-- Symmetric positive semi-definite matrix, stated from the words of the
spec (section 8: P_pred remains symmetric and positive semi-definite). -/
def IsPSD (M : Matrix (Fin 5) (Fin 5) ℝ) : Prop :=
  (∀ i j, M i j = M j i) ∧
    ∀ v : Fin 5 → ℝ, 0 ≤ ∑ i : Fin 5, ∑ j : Fin 5, v i * M i j * v j

/-- An initialized state sitting one second after epoch, used to exercise a
record whose timestamp goes backwards. -/
def s4 : UKFState := ⟨true, 1000000, true, true, 0, 1, 0⟩

/-- A laser record with timestamp 0, one second before the timestamp stored
in s4, so dt is -1. -/
def pkg4 : MeasurementPackage := ⟨SensorType.laser, 0, fun _ => 0⟩

/-- An initialized state two seconds after epoch, for the witness record. -/
def s4w : UKFState := ⟨true, 2000000, true, true, 0, 1, 0⟩

/-- A radar record one second before the timestamp stored in s4w. -/
def pkg4w : MeasurementPackage := ⟨SensorType.radar, 1000000, fun _ => 1⟩

/-- A radar first record with range 1, bearing pi/2 and range rate 2. -/
def pkg5 : MeasurementPackage :=
  ⟨SensorType.radar, 0, fun i => if i.val = 0 then 1 else if i.val = 1 then Real.pi / 2 else 2⟩

/-- An initialized state whose predicted sigma points all equal the state
plus one in the yaw component, so every normalized state difference is the
yaw unit direction. -/
def cexS2 : UKFState :=
  ⟨true, 0, true, true, 0, 1, Matrix.of fun r _ => if r = 3 then 1 else 0⟩

/-- Radar-dimension sigma measurements that all sit one above the predicted
measurement in component 1. -/
def cexZsig2 : Matrix (Fin 3) (Fin 15) ℝ :=
  Matrix.of fun r _ => if r = 1 then 1 else 0

/-- An initialized state whose predicted sigma points all equal the state
plus one in the px component. -/
def cexS3 : UKFState :=
  ⟨true, 0, true, true, 0, 1, Matrix.of fun r _ => if r = 0 then 1 else 0⟩

/-- Laser-dimension sigma measurements whose py residual against the
predicted measurement is 4 in every column. -/
def cexZsig3 : Matrix (Fin 2) (Fin 15) ℝ :=
  Matrix.of fun r _ => if r = 1 then 4 else 0

/-- An initialized state whose predicted sigma points all coincide with the
state, so the cross correlation and the Kalman gain are zero. -/
def cexS9 : UKFState := ⟨true, 0, true, true, 0, 1, 0⟩

/-- A laser record that matches the predicted measurement exactly. -/
def pkgA : MeasurementPackage := ⟨SensorType.laser, 0, fun _ => 0⟩

/-- A laser record one metre off the predicted measurement in px. -/
def pkgB : MeasurementPackage :=
  ⟨SensorType.laser, 0, fun i => if i.val = 0 then 1 else 0⟩

/-- Explicit inverse of the laser noise covariance diag(0.0225, 0.0225). -/
def RlidarInv : Matrix (Fin 2) (Fin 2) ℝ :=
  Matrix.of fun a b => if a = b then 400 / 9 else 0

/-- The off-diagonal coupling pi sqrt(3) / 6 used in the covariance that
breaks positive semi-definiteness of the predicted covariance; sqrt 3 times
this value is pi / 2, so the yaw sigma offsets land exactly on pi / 2. -/
def cexc : ℝ := Real.pi * Real.sqrt 3 / 6

/-- A symmetric positive-definite covariance that couples yaw strongly with
px, py and v: small variances for px, py, v and yaw rate, yaw variance
4 cexc^2 and yaw covariances cexc / 10 against px, py, v. -/
def cexP7 : Matrix (Fin 5) (Fin 5) ℝ :=
  Matrix.of fun i j =>
    if i.val ≤ 2 ∧ i = j then 1 / 100
    else if i = 3 ∧ j = 3 then 4 * cexc ^ 2
    else if i = 3 ∧ j.val ≤ 2 then cexc / 10
    else if j = 3 ∧ i.val ≤ 2 then cexc / 10
    else if i = 4 ∧ j = 4 then 1 / 100000000
    else 0

/-- Tracking state holding the covariance cexP7 and the state
(0, 0, 1, 0, 0): unit speed, zero yaw, zero yaw rate. -/
def cexS7 : UKFState :=
  ⟨true, 0, true, true, fun i => if i.val = 2 then 1 else 0, cexP7, 0⟩

/-- The lower Cholesky factor of the augmented covariance built from cexP7:
diagonal (1/10, 1/10, 1/10, cexc, 1/10000, 1/2, 1) with row 3 equal to cexc
on its first four entries. -/
def cexL7 : Matrix (Fin 7) (Fin 7) ℝ :=
  Matrix.of fun i j =>
    if i = 3 ∧ j.val ≤ 3 then cexc
    else if i = j then
      (if i.val ≤ 2 then 1 / 10
       else if i.val = 4 then 1 / 10000
       else if i.val = 5 then 1 / 2
       else 1)
    else 0

/-- Row 0 (the px row) of the sigma points predicted from cexS7 with dt 1. -/
def cexRow : Fin 15 → ℝ := fun i =>
  if i.val = 1 then Real.sqrt 3 / 10
  else if i.val = 8 then -(Real.sqrt 3 / 10)
  else if i.val = 6 then 1 + Real.sqrt 3 / 4
  else if i.val = 13 then 1 - Real.sqrt 3 / 4
  else if i.val = 2 ∨ i.val = 3 ∨ i.val = 4 ∨ i.val = 9 ∨ i.val = 10 ∨ i.val = 11 then 0
  else 1

theorem wrapDown_of_le {a : ℝ} (h : a ≤ Real.pi) : wrapDown a = a := by
  rw [wrapDown]
  exact dif_neg (not_lt.mpr h)

theorem wrapUp_of_ge {a : ℝ} (h : -Real.pi ≤ a) : wrapUp a = a := by
  rw [wrapUp]
  exact dif_neg (not_lt.mpr h)

theorem wrapDown_step {a : ℝ} (h : Real.pi < a) :
    wrapDown a = wrapDown (a - 2 * Real.pi) := by
  conv_lhs => rw [wrapDown]
  exact dif_pos h

theorem normalizeAngle_small {a : ℝ} (h1 : -Real.pi ≤ a) (h2 : a ≤ Real.pi) :
    normalizeAngle a = a := by
  rw [normalizeAngle, wrapDown_of_le h2, wrapUp_of_ge h1]

theorem normalizeAngle_zero : normalizeAngle 0 = 0 :=
  normalizeAngle_small (by linarith [Real.pi_pos]) (by linarith [Real.pi_pos])

theorem normalizeAngle_one : normalizeAngle 1 = 1 :=
  normalizeAngle_small (by linarith [Real.pi_pos]) (by linarith [Real.pi_gt_three])

theorem normalizeAngle_four : normalizeAngle 4 = 4 - 2 * Real.pi := by
  have h1 : Real.pi < 4 := by linarith [Real.pi_lt_315]
  have h2 : (4:ℝ) - 2 * Real.pi ≤ Real.pi := by linarith [Real.pi_gt_three]
  have h3 : -Real.pi ≤ 4 - 2 * Real.pi := by linarith [Real.pi_lt_315]
  rw [normalizeAngle, wrapDown_step h1, wrapDown_of_le h2, wrapUp_of_ge h3]

theorem normalizeAngle_seven : normalizeAngle 7 = 7 - 2 * Real.pi := by
  have h1 : Real.pi < 7 := by linarith [Real.pi_lt_315]
  have h2 : (7:ℝ) - 2 * Real.pi ≤ Real.pi := by linarith [Real.pi_gt_three]
  have h3 : -Real.pi ≤ 7 - 2 * Real.pi := by linarith [Real.pi_lt_315]
  rw [normalizeAngle, wrapDown_step h1, wrapDown_of_le h2, wrapUp_of_ge h3]

theorem weights_sum : ∑ i : Fin 15, weights_ i = 1 := by
  simp [Fin.sum_univ_succ, weights_, lambda_, n_aug_, Fin.succ_ne_zero]
  norm_num

theorem sqrt3_sq : Real.sqrt 3 * Real.sqrt 3 = 3 :=
  Real.mul_self_sqrt (by norm_num)

theorem sqrt3_lt_two : Real.sqrt 3 < 2 := by
  nlinarith [sqrt3_sq, Real.sqrt_nonneg 3]

theorem sqrt_lam : Real.sqrt (lambda_ + (n_aug_ : ℝ)) = Real.sqrt 3 := by
  norm_num [lambda_, n_aug_]

theorem downFuel_complete :
    ∀ (k : ℕ) (a : ℝ), (⌈(a - Real.pi) / (2 * Real.pi)⌉).toNat ≤ k →
      downFuel k a = some (wrapDown a) := by
  intro k
  induction k with
  | zero =>
    intro a ha
    have hle : a ≤ Real.pi := by
      by_contra hlt
      push_neg at hlt
      have h2 : (0:ℝ) < (a - Real.pi) / (2 * Real.pi) :=
        div_pos (by linarith) (by positivity)
      have h3 : 0 < ⌈(a - Real.pi) / (2 * Real.pi)⌉ := Int.ceil_pos.mpr h2
      omega
    rw [downFuel, if_neg (not_lt.mpr hle), wrapDown_of_le hle]
  | succ n ih =>
    intro a ha
    by_cases h : Real.pi < a
    · rw [downFuel, if_pos h, wrapDown_step h]
      apply ih
      have h1 : (a - 2 * Real.pi - Real.pi) / (2 * Real.pi)
          = (a - Real.pi) / (2 * Real.pi) - 1 := by field_simp; ring
      rw [h1, Int.ceil_sub_one]
      have h2 : (0:ℝ) < (a - Real.pi) / (2 * Real.pi) :=
        div_pos (by linarith) (by positivity)
      have h3 : 0 < ⌈(a - Real.pi) / (2 * Real.pi)⌉ := Int.ceil_pos.mpr h2
      omega
    · rw [downFuel, if_neg h, wrapDown_of_le (not_lt.mp h)]

theorem upFuel_complete :
    ∀ (k : ℕ) (a : ℝ), (⌈(-Real.pi - a) / (2 * Real.pi)⌉).toNat ≤ k →
      upFuel k a = some (wrapUp a) := by
  intro k
  induction k with
  | zero =>
    intro a ha
    have hle : -Real.pi ≤ a := by
      by_contra hlt
      push_neg at hlt
      have h2 : (0:ℝ) < (-Real.pi - a) / (2 * Real.pi) :=
        div_pos (by linarith) (by positivity)
      have h3 : 0 < ⌈(-Real.pi - a) / (2 * Real.pi)⌉ := Int.ceil_pos.mpr h2
      omega
    rw [upFuel, if_neg (not_lt.mpr hle), wrapUp_of_ge hle]
  | succ n ih =>
    intro a ha
    by_cases h : a < -Real.pi
    · have hstep : wrapUp a = wrapUp (a + 2 * Real.pi) := by
        conv_lhs => rw [wrapUp]
        exact dif_pos h
      rw [upFuel, if_pos h, hstep]
      apply ih
      have h1 : (-Real.pi - (a + 2 * Real.pi)) / (2 * Real.pi)
          = (-Real.pi - a) / (2 * Real.pi) - 1 := by field_simp; ring
      rw [h1, Int.ceil_sub_one]
      have h2 : (0:ℝ) < (-Real.pi - a) / (2 * Real.pi) :=
        div_pos (by linarith) (by positivity)
      have h3 : 0 < ⌈(-Real.pi - a) / (2 * Real.pi)⌉ := Int.ceil_pos.mpr h2
      omega
    · rw [upFuel, if_neg h, wrapUp_of_ge (not_lt.mp h)]

/-- C10: Every iterative angle-normalization loop (while the angle exceeds pi
subtract 2 pi; while it is below -pi add 2 pi) terminates in finitely many
iterations for every finite real input angle; the two loops, run in sequence
with enough fuel, finish and compute exactly the normalizeAngle value used in
the covariance prediction, in the radar innovation-covariance accumulation,
and in the cross-correlation accumulation. -/
theorem claim_C10 (a : ℝ) :
    ∃ n m : ℕ, downFuel n a = some (wrapDown a)
      ∧ upFuel m (wrapDown a) = some (normalizeAngle a) :=
  ⟨(⌈(a - Real.pi) / (2 * Real.pi)⌉).toNat,
   (⌈(-Real.pi - wrapDown a) / (2 * Real.pi)⌉).toNat,
   downFuel_complete _ a le_rfl, upFuel_complete _ (wrapDown a) le_rfl⟩

/-- C8: The 15-element weight vector built in the constructor with
lambda = 3 - n_aug and n_aug = 7 satisfies weights(0) = lambda/(lambda+n_aug),
weights(i) = 0.5/(lambda+n_aug) for every i in 1..14, and the sum of all 15
weights is exactly 1. -/
theorem claim_C8 :
    weights_ 0 = lambda_ / (lambda_ + (n_aug_ : ℝ))
      ∧ (∀ i : Fin 14, weights_ i.succ = 0.5 / (lambda_ + (n_aug_ : ℝ)))
      ∧ ∑ i : Fin 15, weights_ i = 1 := by
  refine ⟨by simp [weights_], fun i => ?_, weights_sum⟩
  rw [weights_, if_neg (Fin.succ_ne_zero i), add_comm]

/-- C5: the claim states that Initialize on a first radar record sets the
position to (rho cos phi, rho sin phi), a velocity seed in x(2), and zero in
both x(3) and x(4).  At the failing input rho = 1, phi = pi/2, rho_dot = 2 the
code indeed writes position (0, 1) and x(2) = 0, x(4) = 0, but it stores
rho_dot * sin(phi) = 2 into x(3), the yaw slot, instead of 0. -/
theorem claim_C5 :
    (Initialize ctorState pkg5).x_ 0 = 0
      ∧ (Initialize ctorState pkg5).x_ 1 = 1
      ∧ (Initialize ctorState pkg5).x_ 2 = 0
      ∧ (Initialize ctorState pkg5).x_ 3 = 2
      ∧ (Initialize ctorState pkg5).x_ 4 = 0
      ∧ (2:ℝ) ≠ 0 := by
  refine ⟨?_, ?_, ?_, ?_, ?_, by norm_num⟩ <;>
    simp +decide [Initialize, pkg5, ctorState, Real.cos_pi_div_two, Real.sin_pi_div_two]

/-- C4 counterexample: at a non-initial laser record whose timestamp is one
second older than the stored one (dt = -1 ≤ 0), ProcessMeasurement does not
reject the record or hold the previous state: it changes the state and runs
the normal Prediction-then-update pipeline with the negative dt. -/
theorem claim_C4_cex :
    dtOf s4 pkg4 ≤ 0
      ∧ ProcessMeasurement s4 pkg4 ≠ s4
      ∧ ProcessMeasurement s4 pkg4
        = UpdateLidar
            (Prediction { s4 with previous_timestamp_ := pkg4.timestamp_ } (dtOf s4 pkg4))
            pkg4 := by
  refine ⟨?_, ?_, rfl⟩
  · norm_num [dtOf, s4, pkg4]
  · intro h
    have h2 := congrArg UKFState.previous_timestamp_ h
    have h3 : (ProcessMeasurement s4 pkg4).previous_timestamp_ = 0 := rfl
    have h4 : s4.previous_timestamp_ = 1000000 := rfl
    rw [h3, h4] at h2
    exact absurd h2 (by decide)

/-- C4: the claim states that a non-initial record with dt ≤ 0 is explicitly
rejected rather than the motion model being run; in the code no such check
exists.  Amended: a non-initial record with dt ≤ 0, of either sensor type,
is processed exactly like any other record: Prediction runs on the
non-positive dt and then the update matching the sensor type of the record
runs. -/
theorem claim_C4 (s : UKFState) (pkg : MeasurementPackage)
    (hinit : s.is_initialized_ = true)
    (hdt : dtOf s pkg ≤ 0) :
    ProcessMeasurement s pkg
      = (if pkg.sensor_type_ = SensorType.radar then
          UpdateRadar
            (Prediction { s with previous_timestamp_ := pkg.timestamp_ } (dtOf s pkg))
            pkg
        else
          UpdateLidar
            (Prediction { s with previous_timestamp_ := pkg.timestamp_ } (dtOf s pkg))
            pkg) := by
  rw [ProcessMeasurement, hinit, if_neg (by decide : ¬(true = false))]

/-- C4 witness: the amended statement applied at a concrete initialized state
and a concrete radar record with dt = -1. -/
theorem claim_C4_witness :
    ProcessMeasurement s4w pkg4w
      = (if pkg4w.sensor_type_ = SensorType.radar then
          UpdateRadar
            (Prediction { s4w with previous_timestamp_ := pkg4w.timestamp_ } (dtOf s4w pkg4w))
            pkg4w
        else
          UpdateLidar
            (Prediction { s4w with previous_timestamp_ := pkg4w.timestamp_ } (dtOf s4w pkg4w))
            pkg4w) :=
  claim_C4 s4w pkg4w rfl (by norm_num [dtOf, s4w, pkg4w])

/-- C1: the claim states that records of a sensor type disabled by
configuration produce no state change beyond Prediction alone; the code
never reads use_laser_ or use_radar_, so the resulting state mean and
covariance of ProcessMeasurement are identical whatever the flags are set
to, and in particular the measurement update is never skipped. -/
theorem claim_C1 (s : UKFState) (pkg : MeasurementPackage) (b1 b2 : Bool) :
    (ProcessMeasurement { s with use_laser_ := b1, use_radar_ := b2 } pkg).x_
        = (ProcessMeasurement s pkg).x_
      ∧ (ProcessMeasurement { s with use_laser_ := b1, use_radar_ := b2 } pkg).P_
        = (ProcessMeasurement s pkg).P_ := by
  rcases s with ⟨ini, ts, ul, ur, x, P, Xp⟩
  rcases pkg with ⟨st, ts2, raw⟩
  cases ini <;> cases st <;> exact ⟨rfl, rfl⟩

theorem cexS2_x : cexS2.x_ = 0 := rfl

theorem Tc2_one : Tc cexS2 cexZsig2 (0 : Fin 3 → ℝ) 3 1 = 1 := by
  rw [Tc]
  have h : ∀ i : Fin 15,
      weights_ i * stateDiffN cexS2.Xsig_pred_ cexS2.x_ i 3
          * zDiffN cexZsig2 (0 : Fin 3 → ℝ) i 1
        = weights_ i := by
    intro i
    simp +decide [stateDiffN, zDiffN, cexS2, cexZsig2, normalizeAngle_one]
  rw [Finset.sum_congr rfl fun i _ => h i]
  exact weights_sum

theorem Tc2_zero0 : Tc cexS2 cexZsig2 (0 : Fin 3 → ℝ) 3 0 = 0 := by
  rw [Tc]
  apply Finset.sum_eq_zero
  intro i _
  simp +decide [zDiffN, cexZsig2]

theorem Tc2_zero2 : Tc cexS2 cexZsig2 (0 : Fin 3 → ℝ) 3 2 = 0 := by
  rw [Tc]
  apply Finset.sum_eq_zero
  intro i _
  simp +decide [zDiffN, cexZsig2]

/-- C2 counterexample: a radar-dimension UpdateState call with unit Kalman
coupling from the bearing residual into yaw and innovation bearing 6 stores
yaw 6, which is greater than pi, so the yaw component of the stored state is
not wrapped to the interval (-pi, pi]. -/
theorem claim_C2_cex :
    (UpdateState cexS2 (fun j => if j = 1 then (6:ℝ) else 0) cexZsig2
        (1 : Matrix (Fin 3) (Fin 3) ℝ) 0).1.x_ 3 = 6
      ∧ Real.pi < 6 := by
  constructor
  · show cexS2.x_ 3
        + ((Tc cexS2 cexZsig2 0 * (1 : Matrix (Fin 3) (Fin 3) ℝ)⁻¹).mulVec
            (innovationOf (fun j => if j = 1 then (6:ℝ) else 0) 0)) 3 = 6
    rw [inv_one, Matrix.mul_one]
    simp +decide [Matrix.mulVec, Matrix.dotProduct, Fin.sum_univ_three, innovationOf,
      Tc2_one, Tc2_zero0, Tc2_zero2, cexS2_x]
  · linarith [Real.pi_lt_315]

/-- C2: the claim states that UpdateState wraps the yaw component of
x_new = x_pred + K innovation to (-pi, pi] before storing it; the code
applies no wrap there.  Amended: the stored yaw component is exactly
x_pred(3) + (K innovation)(3), with no normalization applied. -/
theorem claim_C2 {k : ℕ} (s : UKFState) (z z_pred : Fin (k + 2) → ℝ)
    (Zsig : Matrix (Fin (k + 2)) (Fin 15) ℝ)
    (S : Matrix (Fin (k + 2)) (Fin (k + 2)) ℝ) :
    (UpdateState s z Zsig S z_pred).1.x_ 3
      = s.x_ 3 + ((Tc s Zsig z_pred * S⁻¹).mulVec (innovationOf z z_pred)) 3 := rfl

/-- C6: the claim states that the innovation multiplied by the Kalman gain
has its bearing component wrapped to (-pi, pi] in the radar update; the code
multiplies K by the raw difference z - z_pred.  At bearing residual 7 the
innovation component 1 is 7 (outside (-pi, pi], since pi < 7), the value the
normalization would produce differs from 7, and the stored yaw becomes
exactly 7, showing the unwrapped innovation was used. -/
theorem claim_C6 :
    innovationOf (fun j : Fin 3 => if j = 1 then (7:ℝ) else 0) 0 1 = 7
      ∧ Real.pi < 7
      ∧ normalizeAngle 7 ≠ 7
      ∧ (UpdateState cexS2 (fun j => if j = 1 then (7:ℝ) else 0) cexZsig2
            (1 : Matrix (Fin 3) (Fin 3) ℝ) 0).1.x_ 3 = 7
      ∧ (UpdateState cexS2 (fun j => if j = 1 then (7:ℝ) else 0) cexZsig2
            (1 : Matrix (Fin 3) (Fin 3) ℝ) 0).2 1 = 7 := by
  refine ⟨by simp [innovationOf], by linarith [Real.pi_lt_315], ?_, ?_,
    show innovationOf (fun j : Fin 3 => if j = 1 then (7:ℝ) else 0) 0 1 = 7 by
      simp [innovationOf]⟩
  · rw [normalizeAngle_seven]
    have := Real.pi_pos
    intro h
    linarith
  · show cexS2.x_ 3
        + ((Tc cexS2 cexZsig2 0 * (1 : Matrix (Fin 3) (Fin 3) ℝ)⁻¹).mulVec
            (innovationOf (fun j => if j = 1 then (7:ℝ) else 0) 0)) 3 = 7
    rw [inv_one, Matrix.mul_one]
    simp +decide [Matrix.mulVec, Matrix.dotProduct, Fin.sum_univ_three, innovationOf,
      Tc2_one, Tc2_zero0, Tc2_zero2, cexS2_x]

/-- C3: the claim states that in the laser update no angle wrap-around is
applied to any residual component in either the innovation-covariance or the
cross-correlation accumulation.  The innovation-covariance loop of
UpdateLidar indeed subtracts plainly (lidarS is built from plain residuals by
definition), but the shared cross-correlation loop normalizes component 1 of
every residual even in the laser dimension: with a py residual of 4 in every
column, the accumulated Tc entry is 4 - 2 pi rather than 4. -/
theorem claim_C3 :
    Tc cexS3 cexZsig3 (0 : Fin 2 → ℝ) 0 1 = 4 - 2 * Real.pi
      ∧ 4 - 2 * Real.pi ≠ 4 := by
  constructor
  · rw [Tc]
    have h : ∀ i : Fin 15,
        weights_ i * stateDiffN cexS3.Xsig_pred_ cexS3.x_ i 0
            * zDiffN cexZsig3 (0 : Fin 2 → ℝ) i 1
          = weights_ i * (4 - 2 * Real.pi) := by
      intro i
      simp +decide [stateDiffN, zDiffN, cexS3, cexZsig3, normalizeAngle_four]
    rw [Finset.sum_congr rfl fun i _ => h i, ← Finset.sum_mul, weights_sum, one_mul]
  · have := Real.pi_pos
    intro h
    linarith

theorem sdN9 (i : Fin 15) (r : Fin 5) :
    stateDiffN cexS9.Xsig_pred_ cexS9.x_ i r = 0 := by
  rw [stateDiffN]
  split <;> simp [cexS9, normalizeAngle_zero]

theorem Tc9 : Tc cexS9 (lidarZsig cexS9) (lidarZpred cexS9) = 0 := by
  ext a b
  rw [Tc, show (0 : Matrix (Fin 5) (Fin 2) ℝ) a b = 0 from rfl]
  apply Finset.sum_eq_zero
  intro i _
  rw [sdN9 i a]
  ring

theorem UpdateLidar9 (pkg : MeasurementPackage) :
    (UpdateLidar cexS9 pkg).x_ = cexS9.x_ ∧ (UpdateLidar cexS9 pkg).P_ = cexS9.P_ := by
  constructor <;> simp [UpdateLidar, UpdateState, Tc9]

theorem lidarZpred9 : lidarZpred cexS9 = 0 := by
  funext r
  simp [lidarZpred, lidarZsig, cexS9]

theorem lidarZsig9 : lidarZsig cexS9 = 0 := by
  funext r i
  simp [lidarZsig, cexS9]

theorem lidarS9 : lidarS cexS9 = Rlidar := by
  ext a b
  rw [lidarS]
  simp [lidarZsig9, lidarZpred9]

theorem Rlidar_inv : Rlidar⁻¹ = RlidarInv := by
  apply Matrix.inv_eq_right_inv
  ext a b
  fin_cases a <;> fin_cases b <;>
    simp +decide [Rlidar, RlidarInv, Matrix.mul_apply, Fin.sum_univ_two,
      std_laspx_, std_laspy_, Matrix.one_apply] <;> norm_num

/-- C9: the claim states that after every update cycle the NIS scalar is
exposed to the external consumer, tagged with the sensor type.  In the code
the NIS is computed into a local variable that is discarded (the output
statement is commented out): two laser records with different NIS values
produce identical stored state and covariance, so the filter output exposes
nothing about the NIS. -/
theorem claim_C9 :
    (UpdateLidar cexS9 pkgA).x_ = (UpdateLidar cexS9 pkgB).x_
      ∧ (UpdateLidar cexS9 pkgA).P_ = (UpdateLidar cexS9 pkgB).P_
      ∧ lidarNis cexS9 pkgA ≠ lidarNis cexS9 pkgB := by
  refine ⟨?_, ?_, ?_⟩
  · rw [(UpdateLidar9 pkgA).1, (UpdateLidar9 pkgB).1]
  · rw [(UpdateLidar9 pkgA).2, (UpdateLidar9 pkgB).2]
  · have hA : lidarNis cexS9 pkgA = 0 := by
      show nisOf (lidarS cexS9) (innovationOf (lidarZ pkgA) (lidarZpred cexS9)) = 0
      have hz : innovationOf (lidarZ pkgA) (lidarZpred cexS9) = 0 := by
        funext r
        simp [innovationOf, lidarZ, pkgA, lidarZpred9]
      rw [hz, nisOf]
      simp
    have hB : lidarNis cexS9 pkgB = 400 / 9 := by
      show nisOf (lidarS cexS9) (innovationOf (lidarZ pkgB) (lidarZpred cexS9)) = 400 / 9
      have hz : innovationOf (lidarZ pkgB) (lidarZpred cexS9)
          = (fun r => if r = 0 then 1 else 0) := by
        funext r
        fin_cases r <;> simp +decide [innovationOf, lidarZ, pkgB, lidarZpred9]
      rw [hz, nisOf, lidarS9, Rlidar_inv]
      simp +decide [Matrix.dotProduct, Matrix.mulVec, Fin.sum_univ_two, RlidarInv]
    rw [hA, hB]
    norm_num

theorem cexc_nonneg : 0 ≤ cexc := by
  rw [cexc]
  positivity

theorem cexc_pos : 0 < cexc := by
  rw [cexc]
  positivity

theorem sqrt3_cexc : Real.sqrt 3 * cexc = Real.pi / 2 := by
  rw [cexc]
  linear_combination (Real.pi / 6) * sqrt3_sq

theorem cexS7_x : cexS7.x_ = fun i : Fin 5 => if i.val = 2 then 1 else 0 := rfl

set_option maxHeartbeats 1000000 in
theorem cholL_cex : cholL (P_aug cexS7) = cexL7 := by
  have hs1 : Real.sqrt (1 / 100) = 1 / 10 := by
    rw [show (1/100 : ℝ) = (1/10)^2 by norm_num, Real.sqrt_sq (by norm_num)]
  have hs2 : Real.sqrt (1 / 100000000) = 1 / 10000 := by
    rw [show (1/100000000 : ℝ) = (1/10000)^2 by norm_num, Real.sqrt_sq (by norm_num)]
  have hs3 : Real.sqrt (1 / 4) = 1 / 2 := by
    rw [show (1/4 : ℝ) = (1/2)^2 by norm_num, Real.sqrt_sq (by norm_num)]
  have hs4 : Real.sqrt (cexc ^ 2) = cexc := Real.sqrt_sq cexc_nonneg
  have hs5 : Real.sqrt 100 = 10 := by
    rw [show (100:ℝ) = 10^2 by norm_num, Real.sqrt_sq (by norm_num)]
  have hs6 : Real.sqrt 100000000 = 10000 := by
    rw [show (100000000:ℝ) = 10000^2 by norm_num, Real.sqrt_sq (by norm_num)]
  have hs7 : Real.sqrt 4 = 2 := by
    rw [show (4:ℝ) = 2^2 by norm_num, Real.sqrt_sq (by norm_num)]
  have hs8 : cexc ^ 2 * 4 + -(cexc ^ 2 * 100 * (3 / 100)) = cexc ^ 2 := by ring
  funext i j
  fin_cases i <;> fin_cases j <;>
    simp +decide [cholL, cholUp, cholCol, cholSum, P_aug, cexS7, cexP7, cexL7,
      Fin.sum_univ_succ, std_a_, std_yawdd_] <;>
    (ring_nf; try norm_num [hs1, hs2, hs3, hs4, hs5, hs6, hs7, hs8, Real.sqrt_one]) <;>
    ring

set_option maxHeartbeats 1600000 in
theorem Xp7_row0 : ∀ i : Fin 15, SigmaPointPrediction cexS7 1 0 i = cexRow i := by
  have h5a : ¬ ((1 / 1000 : ℝ) < |Real.sqrt 3 * (1 / 10000)|) := by
    rw [abs_of_nonneg (by positivity)]
    nlinarith [sqrt3_lt_two, Real.sqrt_nonneg 3]
  intro i
  fin_cases i <;>
    norm_num +decide [SigmaPointPrediction, ctrv, AugmentedSigmaPoints, x_aug,
      cexS7_x, sqrt_lam, cholL_cex, cexL7, cexRow, h5a, sqrt3_cexc,
      Real.cos_pi_div_two, Real.cos_neg, Real.cos_zero] <;>
    try ring

set_option maxHeartbeats 1600000 in
theorem predMean7 : predMean (SigmaPointPrediction cexS7 1) 0 = -(1/3) := by
  have h : ∀ i : Fin 15,
      weights_ i * SigmaPointPrediction cexS7 1 0 i = weights_ i * cexRow i :=
    fun i => by rw [Xp7_row0 i]
  rw [predMean, Finset.sum_congr rfl fun i _ => h i]
  simp +decide [Fin.sum_univ_succ, weights_, cexRow, lambda_, n_aug_, Fin.succ_ne_zero]
  ring

set_option maxHeartbeats 1600000 in
theorem predP00_neg : (Prediction cexS7 1).P_ 0 0 < 0 := by
  show predCov (SigmaPointPrediction cexS7 1)
      (predMean (SigmaPointPrediction cexS7 1)) 0 0 < 0
  have h : ∀ i : Fin 15,
      weights_ i
          * stateDiffN (SigmaPointPrediction cexS7 1)
              (predMean (SigmaPointPrediction cexS7 1)) i 0
          * stateDiffN (SigmaPointPrediction cexS7 1)
              (predMean (SigmaPointPrediction cexS7 1)) i 0
        = weights_ i * (cexRow i + 1/3) * (cexRow i + 1/3) := by
    intro i
    simp only [stateDiffN]
    rw [if_neg (by decide : ¬((0 : Fin 5) = 3)), Xp7_row0 i, predMean7]
    ring
  simp only [predCov]
  rw [Finset.sum_congr rfl fun i _ => h i]
  simp +decide [Fin.sum_univ_succ, weights_, cexRow, lambda_, n_aug_, Fin.succ_ne_zero]
  nlinarith [sqrt3_sq, Real.sqrt_nonneg 3]

theorem cexP7_SPD : IsSPD cexP7 := by
  constructor
  · intro i j
    fin_cases i <;> fin_cases j <;> simp +decide [cexP7]
  · intro v hv
    have hform : ∑ i : Fin 5, ∑ j : Fin 5, v i * cexP7 i j * v j
        = (v 0 / 10 + cexc * v 3)^2 + (v 1 / 10 + cexc * v 3)^2
          + (v 2 / 10 + cexc * v 3)^2 + cexc^2 * (v 3)^2 + (v 4)^2 / 100000000 := by
      simp +decide [Fin.sum_univ_five, cexP7]
      ring
    rw [hform]
    have hvv : v 0 ≠ 0 ∨ v 1 ≠ 0 ∨ v 2 ≠ 0 ∨ v 3 ≠ 0 ∨ v 4 ≠ 0 := by
      by_contra hall
      push_neg at hall
      obtain ⟨e0, e1, e2, e3, e4⟩ := hall
      apply hv
      funext r
      simp only [Pi.zero_apply]
      fin_cases r
      · exact e0
      · exact e1
      · exact e2
      · exact e3
      · exact e4
    by_cases h3 : v 3 = 0
    · rw [h3]
      rcases hvv with h | h | h | h | h
      · nlinarith [mul_self_pos.mpr h, sq_nonneg (v 1), sq_nonneg (v 2), sq_nonneg (v 4)]
      · nlinarith [mul_self_pos.mpr h, sq_nonneg (v 0), sq_nonneg (v 2), sq_nonneg (v 4)]
      · nlinarith [mul_self_pos.mpr h, sq_nonneg (v 0), sq_nonneg (v 1), sq_nonneg (v 4)]
      · exact absurd h3 h
      · nlinarith [mul_self_pos.mpr h, sq_nonneg (v 0), sq_nonneg (v 1), sq_nonneg (v 2)]
    · nlinarith [sq_nonneg (v 0 / 10 + cexc * v 3), sq_nonneg (v 1 / 10 + cexc * v 3),
        sq_nonneg (v 2 / 10 + cexc * v 3), sq_nonneg (v 4),
        mul_pos (mul_pos cexc_pos cexc_pos) (mul_self_pos.mpr h3)]

/-- C7: the claim states that for every symmetric positive-definite input P
and every dt ≥ 0 the predicted covariance is symmetric and positive
semi-definite.  Amended: the predicted covariance is always symmetric, but
with lambda = 3 - n_aug = -4 the central weight is -4/3 and positive
semi-definiteness can fail (see the counterexample). -/
theorem claim_C7 (s : UKFState) (dt : ℝ) (i j : Fin 5) :
    (Prediction s dt).P_ i j = (Prediction s dt).P_ j i := by
  show predCov (SigmaPointPrediction s dt) (predMean (SigmaPointPrediction s dt)) i j
      = predCov (SigmaPointPrediction s dt) (predMean (SigmaPointPrediction s dt)) j i
  simp only [predCov]
  exact Finset.sum_congr rfl fun k _ => by ring

/-- C7 counterexample: the covariance cexP7 is symmetric positive-definite
and dt = 1 is nonnegative, yet the predicted covariance of the predict cycle
run from it has a negative (0,0) entry, so it is not positive semi-definite
as the claim states. -/
theorem claim_C7_cex :
    IsSPD cexS7.P_ ∧ (0:ℝ) ≤ 1 ∧ ¬ IsPSD ((Prediction cexS7 1).P_) := by
  refine ⟨cexP7_SPD, by norm_num, ?_⟩
  intro hPSD
  have h := hPSD.2 (fun i => if i = 0 then 1 else 0)
  have h00 : ∑ i : Fin 5, ∑ j : Fin 5,
      (if i = 0 then (1:ℝ) else 0) * (Prediction cexS7 1).P_ i j
        * (if j = 0 then (1:ℝ) else 0)
        = (Prediction cexS7 1).P_ 0 0 := by
    simp [Fin.sum_univ_five]
  rw [h00] at h
  linarith [predP00_neg]

end UKFM
